import Mathlib

/-!
Verification of the visibility, registration, invitation and reminder core of
an event-management REST API. The definitions below are a shallow embedding of
the Python/Django source: `get_object`, `listEvents`, `register`,
`sendInvitation`, `acceptInvitation`, `updateEvent` and
`schedule_event_reminders` each mirror one handler from
`events/views.py` / `events/tasks.py`, with the Django ORM store modelled as
explicit lists and mutation as explicit state passing.
-/

namespace EventAPI

/-- A user record from `users/models.py`: unique id, unique email, and a
role that is `"attendee"` or `"organizer"`. -/
structure UserT where
  uid : Nat
  email : String
  role : String
  deriving DecidableEq

/-- The requesting principal: anonymous, or an authenticated user
(`request.user.is_authenticated`). -/
inductive Principal where
  | anon : Principal
  | auth : UserT → Principal
  deriving DecidableEq

/-- An `Event` row (`events/models.py`): `organizer` is the owning user's id;
`status` ranges over `upcoming`, `active`, `cancelled`, `completed`;
`start_date` is a day number and `start_time` minutes within the day
(0 ≤ start_time < 1440). -/
structure Event where
  eid : Nat
  organizer : Nat
  slug : String
  name : String
  is_private : Bool
  status : String
  start_date : Int
  start_time : Int
  deriving DecidableEq

/-- An `Invitation` row: invite of `email` to event `event`, with a unique
acceptance `token`, an `accepted` flag and the `accepted_at` stamp. -/
structure Invitation where
  iid : Nat
  event : Nat
  email : String
  token : Nat
  accepted : Bool
  accepted_at : Option Int
  deriving DecidableEq

/-- A `Registration` row: the (event, user) RSVP with a status among
`going`, `not_going`, `maybe` (defaults to `going` at creation). -/
structure Registration where
  event : Nat
  user : Nat
  status : String
  deriving DecidableEq

/-- The persistence store. `emailJobs` is the queue of asynchronous
invitation-email jobs (each carries the invitation id, as in
`send_invitation_email_task.delay(str(invitation.id))`). `nextInvId` and
`nextToken` model the fresh-id and fresh-token supplies backing
`uuid.uuid4` generation. -/
structure Store where
  events : List Event
  invitations : List Invitation
  registrations : List Registration
  emailJobs : List Nat
  nextInvId : Nat
  nextToken : Nat
  deriving DecidableEq

/-- Model of `Event.objects.get(slug=slug)` modulo existence: the first event bearing
the slug (slugs are unique in the store). -/
def findEvent (s : Store) (slug : String) : Option Event :=
  s.events.find? (fun e => e.slug == slug)

/-- Model of `Invitation.objects.filter(event=event, email=email, accepted=True).exists()`. -/
def hasAcceptedInvitation (s : Store) (e : Event) (email : String) : Bool :=
  s.invitations.any (fun i => i.event == e.eid && i.email == email && i.accepted)

/-- Outcome of retrieving a single event. -/
inductive ViewResult where
  | notFound : ViewResult
  | permissionDenied : ViewResult
  | ok : Event → ViewResult
  deriving DecidableEq

/-- Model of `EventRetrieveUpdateDestroyView.get_object`: resolve by slug (404 if
absent); public events are returned to anyone; private events require an
authenticated principal who is the organizer or holds an accepted
invitation for their email, else `PermissionDenied`. -/
def get_object (s : Store) (p : Principal) (slug : String) : ViewResult :=
  match findEvent s slug with
  | none => .notFound
  | some e =>
    if e.is_private then
      match p with
      | .anon => .permissionDenied
      | .auth u =>
        if u.uid == e.organizer then .ok e
        else if hasAcceptedInvitation s e u.email then .ok e
        else .permissionDenied
    else .ok e

/-- Model of `EventListCreateView.get_queryset` with no query parameters: the
visibility filter. Anonymous requesters see only public events; an
authenticated user sees public events, events they organize, and events
holding an accepted invitation for their email (the `.distinct()` of the
ORM query corresponds to `filter` never duplicating list entries). -/
def listEvents (s : Store) (p : Principal) : List Event :=
  match p with
  | .anon => s.events.filter (fun e => !e.is_private)
  | .auth u => s.events.filter (fun e =>
      !e.is_private || e.organizer == u.uid || hasAcceptedInvitation s e u.email)

/-- Outcome of `EventRegistrationView.post` (HTTP 404 / 403 / 409 / 201). -/
inductive RegisterResult where
  | notFound : RegisterResult
  | forbidden : RegisterResult
  | conflict : RegisterResult
  | created : Registration → RegisterResult
  deriving DecidableEq

/-- Model of `Registration.objects.filter(event=event, user=request.user).exists()`. -/
def hasRegistration (s : Store) (e : Event) (u : UserT) : Bool :=
  s.registrations.any (fun r => r.event == e.eid && r.user == u.uid)

/-- Model of `EventRegistrationView.post`: resolve by slug (404); for a private event
a requester who is neither the organizer nor an accepted invitee is
rejected (403); an existing registration for (event, user) yields 409; else
a new registration with the default status `going` is created (201). -/
def register (s : Store) (u : UserT) (slug : String) : RegisterResult × Store :=
  match findEvent s slug with
  | none => (.notFound, s)
  | some e =>
    if e.is_private && !(u.uid == e.organizer) && !(hasAcceptedInvitation s e u.email) then
      (.forbidden, s)
    else if hasRegistration s e u then
      (.conflict, s)
    else
      let r : Registration := { event := e.eid, user := u.uid, status := "going" }
      (.created r, { s with registrations := r :: s.registrations })

/-- Outcome of `InvitationSendView.post`
(HTTP 404 / 403 / 400 / 400-validation / 409 / 202). -/
inductive SendResult where
  | notFound : SendResult
  | forbidden : SendResult
  | badRequest : SendResult
  | validationErr : SendResult
  | conflict : SendResult
  | accepted : Invitation → SendResult
  deriving DecidableEq

/-- Model of `Invitation.objects.filter(event=event, email=email).exists()`. -/
def hasInvitation (s : Store) (e : Event) (email : String) : Bool :=
  s.invitations.any (fun i => i.event == e.eid && i.email == email)

/-- Model of `InvitationSendView.post`: resolve by slug (404); only the organizer may
invite (403); only for private events (400); the email field is required
(validation error); a duplicate (event, email) invite yields 409; else a
pending invitation with a fresh token is stored and one asynchronous
email job carrying the invitation id is enqueued (202). -/
def sendInvitation (s : Store) (u : UserT) (slug email : String) : SendResult × Store :=
  match findEvent s slug with
  | none => (.notFound, s)
  | some e =>
    if !(u.uid == e.organizer) then (.forbidden, s)
    else if !e.is_private then (.badRequest, s)
    else if email == "" then (.validationErr, s)
    else if hasInvitation s e email then (.conflict, s)
    else
      let inv : Invitation :=
        { iid := s.nextInvId, event := e.eid, email := email,
          token := s.nextToken, accepted := false, accepted_at := none }
      (.accepted inv,
       { s with invitations := inv :: s.invitations,
                emailJobs := inv.iid :: s.emailJobs,
                nextInvId := s.nextInvId + 1,
                nextToken := s.nextToken + 1 })

/-- Outcome of `InvitationAcceptView.get` (HTTP 404 / 200). -/
inductive AcceptResult where
  | notFound : AcceptResult
  | ok : AcceptResult
  deriving DecidableEq

/-- Model of `InvitationAcceptView.get`: `Invitation.objects.get(token=token,
accepted=False)` — 404 when no pending invitation bears the token (an
already-accepted token is indistinguishable from an unknown one); on
success the row is saved with `accepted = True` and
`accepted_at = timezone.now()`. -/
def acceptInvitation (s : Store) (tok : Nat) (now : Int) : AcceptResult × Store :=
  match s.invitations.find? (fun i => i.token == tok && !i.accepted) with
  | none => (.notFound, s)
  | some _ =>
    (.ok, { s with invitations := s.invitations.map (fun i =>
        if i.token == tok && !i.accepted then
          { i with accepted := true, accepted_at := some now }
        else i) })

/-- Outcome of a PUT on `EventRetrieveUpdateDestroyView` (404 / 403 / 200). -/
inductive UpdateResult where
  | notFound : UpdateResult
  | forbidden : UpdateResult
  | ok : UpdateResult
  deriving DecidableEq

/-- PUT on `EventRetrieveUpdateDestroyView`: the object is fetched through
`get_object` (so the private-event visibility gate applies), then
`perform_update` admits only the organizer. `EventSerializer.Meta` lists
`status` among `read_only_fields`, so the save writes the writable fields
(represented here by `name`) and ignores any requested status value. -/
def updateEvent (s : Store) (p : Principal) (slug newName _reqStatus : String) :
    UpdateResult × Store :=
  match get_object s p slug with
  | .notFound => (.notFound, s)
  | .permissionDenied => (.forbidden, s)
  | .ok e =>
    match p with
    | .anon => (.forbidden, s)
    | .auth u =>
      if u.uid == e.organizer then
        (.ok, { s with events := s.events.map (fun x =>
            if x.eid == e.eid then { x with name := newName } else x) })
      else (.forbidden, s)

/-- An instant of UTC time as the sweep sees it: `now.date()` as a day
number and `now.time()` as minutes within the day (0 ≤ time < 1440). -/
structure Instant where
  date : Int
  time : Int
  deriving DecidableEq

/-- The instant in absolute minutes. -/
def Instant.toMin (t : Instant) : Int := t.date * 1440 + t.time

/-- Value of `datetime.combine(event.start_date, event.start_time)` in absolute
minutes. -/
def eventStart (e : Event) : Int := e.start_date * 1440 + e.start_time

/-- Value of `event_start_datetime - timedelta(days=1)`: 24 hours before start. -/
def reminderTime (e : Event) : Int := eventStart e - 1440

/-- One `send_event_reminder_task.apply_async(..., eta=reminder_time)` call:
the targeted event, the registrant, and the `eta` instant in minutes. -/
structure ReminderJob where
  event : Nat
  user : Nat
  eta : Int
  deriving DecidableEq

/-- The row filter of the event queryset of
`schedule_event_reminders_task`: `start_date__gte=now.date()`,
`start_time__gte=now.time()`, `status='upcoming'`, excluding
`status__in=['completed','cancelled']`. -/
def sweepKeep (now : Instant) (e : Event) : Bool :=
  decide (now.date ≤ e.start_date) && decide (now.time ≤ e.start_time) &&
  e.status == "upcoming" &&
  !(e.status == "completed" || e.status == "cancelled")

/-- The event queryset of `schedule_event_reminders_task`:
`Event.objects.filter(start_date__gte=now.date(),
start_time__gte=now.time(), status='upcoming')
.exclude(status__in=['completed','cancelled'])`. -/
def sweepSelect (s : Store) (now : Instant) : List Event :=
  s.events.filter (sweepKeep now)

/-- The per-event body of the sweep loop: when
`now < reminder_time < now + timedelta(hours=1)`, one job per registration
of the event with status `going`, each with `eta = reminder_time`. -/
def jobsForEvent (s : Store) (now : Instant) (e : Event) : List ReminderJob :=
  if now.toMin < reminderTime e ∧ reminderTime e < now.toMin + 60 then
    (s.registrations.filter (fun r => r.event == e.eid && r.status == "going")).map
      (fun r => { event := e.eid, user := r.user, eta := reminderTime e })
  else []

/-- Model of `schedule_event_reminders_task`: iterate the selected events and emit
the reminder jobs scheduled during this sweep. -/
def schedule_event_reminders (s : Store) (now : Instant) : List ReminderJob :=
  (sweepSelect s now).flatMap (jobsForEvent s now)

/-- The store invariant behind `Registration.Meta.unique_together`:
no two registration rows share the same (event, user) pair. -/
def regUnique (s : Store) : Prop :=
  s.registrations.Pairwise (fun a b => ¬(a.event = b.event ∧ a.user = b.user))

/-- The fresh-token supply dominates every stored invitation token, so the
next generated token differs from all existing ones (the model of
`token = models.UUIDField(default=uuid.uuid4, unique=True)`). -/
def tokenFresh (s : Store) : Prop :=
  ∀ i ∈ s.invitations, i.token < s.nextToken

/-- Event ids are pairwise distinct (primary-key uniqueness). -/
def eventIdsUnique (s : Store) : Prop :=
  s.events.Pairwise (fun a b => a.eid ≠ b.eid)

/-- C1: retrieval by slug of an existing event: a public event is returned
to any principal; a private event is returned exactly to authenticated
principals who are the organizer or hold an accepted invitation, all other
principals are rejected; anonymous principals never see a private event. -/
theorem retrieve_visibility (s : Store) (p : Principal) (slug : String) (e : Event)
    (hfind : findEvent s slug = some e) :
    (e.is_private = false → get_object s p slug = .ok e) ∧
    (e.is_private = true →
      ((∃ u, p = .auth u ∧
          (u.uid = e.organizer ∨ hasAcceptedInvitation s e u.email = true)) →
        get_object s p slug = .ok e) ∧
      (¬ (∃ u, p = .auth u ∧
          (u.uid = e.organizer ∨ hasAcceptedInvitation s e u.email = true)) →
        get_object s p slug = .permissionDenied)) ∧
    (e.is_private = true → p = .anon → get_object s p slug = .permissionDenied) := by
  unfold get_object
  rw [hfind]
  refine ⟨fun hpub => by simp [hpub], fun hpriv => ⟨fun hyes => ?_, fun hno => ?_⟩,
    fun hpriv hanon => by simp [hpriv, hanon]⟩
  · obtain ⟨u, rfl, hu⟩ := hyes
    rcases hu with h | h <;> simp [hpriv, h]
  · cases p with
    | anon => simp [hpriv]
    | auth u =>
      simp only [hpriv, if_true]
      have h1 : ¬ (u.uid = e.organizer) := fun h => hno ⟨u, rfl, Or.inl h⟩
      have h2 : ¬ (hasAcceptedInvitation s e u.email = true) :=
        fun h => hno ⟨u, rfl, Or.inr h⟩
      simp [h1, h2]

/-- Witness store for C1: one private event with slug `p`, organized by
user 1, with an accepted invitation for `v@x`. -/
def c1Store : Store :=
  { events := [{ eid := 10, organizer := 1, slug := "p", name := "P",
                 is_private := true, status := "upcoming",
                 start_date := 5, start_time := 600 }],
    invitations := [{ iid := 0, event := 10, email := "v@x", token := 7,
                      accepted := true, accepted_at := some 3 }],
    registrations := [], emailJobs := [], nextInvId := 1, nextToken := 8 }

/-- C1 witness: at the concrete store, the accepted invitee sees the
private event and an anonymous request is rejected. -/
theorem retrieve_visibility_witness :
    get_object c1Store (.auth ⟨2, "v@x", "attendee"⟩) "p" =
      .ok { eid := 10, organizer := 1, slug := "p", name := "P",
            is_private := true, status := "upcoming",
            start_date := 5, start_time := 600 } ∧
    get_object c1Store .anon "p" = .permissionDenied := by
  have h1 := retrieve_visibility c1Store (.auth ⟨2, "v@x", "attendee"⟩) "p"
    { eid := 10, organizer := 1, slug := "p", name := "P",
      is_private := true, status := "upcoming", start_date := 5, start_time := 600 }
    (by decide)
  have h2 := retrieve_visibility c1Store .anon "p"
    { eid := 10, organizer := 1, slug := "p", name := "P",
      is_private := true, status := "upcoming", start_date := 5, start_time := 600 }
    (by decide)
  exact ⟨(h1.2.1 rfl).1 ⟨_, rfl, Or.inr (by decide)⟩, h2.2.2 rfl rfl⟩

/-- C2: the anonymous listing holds exactly the public events; the listing
for an authenticated user holds exactly the public events, the events the
user organizes, and the events with an accepted invitation for the user's
email; and a duplicate-free store yields a duplicate-free listing. -/
theorem list_visibility (s : Store) (e : Event) :
    (e ∈ listEvents s .anon ↔ e ∈ s.events ∧ e.is_private = false) ∧
    (∀ u : UserT, e ∈ listEvents s (.auth u) ↔
      e ∈ s.events ∧ (e.is_private = false ∨ e.organizer = u.uid ∨
        hasAcceptedInvitation s e u.email = true)) ∧
    (∀ p : Principal, s.events.Nodup → (listEvents s p).Nodup) := by
  refine ⟨?_, fun u => ?_, fun p hnd => ?_⟩
  · simp [listEvents, List.mem_filter]
  · simp [listEvents, List.mem_filter, or_assoc]
  · cases p <;> exact hnd.filter _

/-- Witness store for C2: one public and one private event. -/
def c2Store : Store :=
  { events := [{ eid := 1, organizer := 1, slug := "a", name := "A",
                 is_private := false, status := "upcoming",
                 start_date := 5, start_time := 600 },
               { eid := 2, organizer := 1, slug := "b", name := "B",
                 is_private := true, status := "upcoming",
                 start_date := 5, start_time := 600 }],
    invitations := [], registrations := [], emailJobs := [],
    nextInvId := 0, nextToken := 0 }

/-- C2 witness: at the concrete store, the public event is anonymously
listed, the private one is not, and the anonymous listing is
duplicate-free. -/
theorem list_visibility_witness :
    { eid := 1, organizer := 1, slug := "a", name := "A", is_private := false,
      status := "upcoming", start_date := 5, start_time := 600 : Event }
        ∈ listEvents c2Store .anon ∧
    ({ eid := 2, organizer := 1, slug := "b", name := "B", is_private := true,
       status := "upcoming", start_date := 5, start_time := 600 : Event }
        ∈ listEvents c2Store .anon → False) ∧
    (listEvents c2Store .anon).Nodup := by
  refine ⟨?_, ?_, ?_⟩
  · exact (list_visibility c2Store _).1.mpr ⟨by decide, rfl⟩
  · intro hmem
    exact absurd ((list_visibility c2Store _).1.mp hmem).2 (by decide)
  · exact (list_visibility c2Store
      { eid := 1, organizer := 1, slug := "a", name := "A", is_private := false,
        status := "upcoming", start_date := 5, start_time := 600 }).2.2 .anon (by decide)

/-- C3: the registration workflow: unknown slug yields NotFound; a private
event with a requester who is neither organizer nor accepted invitee
yields Forbidden; an existing registration for the pair yields Conflict;
otherwise exactly one new registration with status `going` is created and
returned. Failures leave the store unchanged. -/
theorem register_workflow (s : Store) (u : UserT) (slug : String) :
    (findEvent s slug = none → register s u slug = (.notFound, s)) ∧
    (∀ e, findEvent s slug = some e →
      (e.is_private = true → u.uid ≠ e.organizer →
        hasAcceptedInvitation s e u.email = false →
        register s u slug = (.forbidden, s)) ∧
      ((e.is_private = false ∨ u.uid = e.organizer ∨
          hasAcceptedInvitation s e u.email = true) →
        (hasRegistration s e u = true → register s u slug = (.conflict, s)) ∧
        (hasRegistration s e u = false →
          register s u slug =
            (.created { event := e.eid, user := u.uid, status := "going" },
             { s with registrations :=
                { event := e.eid, user := u.uid, status := "going" }
                  :: s.registrations })))) := by
  constructor
  · intro hf; simp [register, hf]
  · intro e hf
    constructor
    · intro hpriv horg hinv
      simp [register, hf, hpriv, horg, hinv]
    · intro hview
      have hgate : ¬(e.is_private = true ∧ ¬u.uid = e.organizer ∧
          ¬hasAcceptedInvitation s e u.email = true) := by
        rcases hview with h | h | h
        · simp [h]
        · intro hc; exact hc.2.1 h
        · intro hc; exact hc.2.2 h
      constructor
      · intro hreg
        simp only [register, hf]
        rw [if_neg (by simpa using hgate)]
        simp [hreg]
      · intro hreg
        simp only [register, hf]
        rw [if_neg (by simpa using hgate)]
        simp [hreg]

/-- Witness store for C3: a public event nobody is registered for. -/
def c3Store : Store :=
  { events := [{ eid := 4, organizer := 1, slug := "pub", name := "Pub",
                 is_private := false, status := "upcoming",
                 start_date := 9, start_time := 0 }],
    invitations := [], registrations := [], emailJobs := [],
    nextInvId := 0, nextToken := 0 }

/-- C3 witness: at the concrete store, a first registration is created with
status `going`, and an unknown slug yields NotFound. -/
theorem register_workflow_witness :
    (register c3Store ⟨7, "a@x", "attendee"⟩ "pub").1 =
      .created { event := 4, user := 7, status := "going" } ∧
    register c3Store ⟨7, "a@x", "attendee"⟩ "nope" = (.notFound, c3Store) := by
  constructor
  · have h := (register_workflow c3Store ⟨7, "a@x", "attendee"⟩ "pub").2
      { eid := 4, organizer := 1, slug := "pub", name := "Pub",
        is_private := false, status := "upcoming", start_date := 9, start_time := 0 }
      (by decide)
    rw [(h.2 (Or.inl rfl)).2 (by decide)]
  · exact (register_workflow c3Store ⟨7, "a@x", "attendee"⟩ "nope").1 (by decide)

/-- C4 counterexample store: a private event with an existing registration
by user 7, who is neither the organizer nor an accepted invitee. -/
def c4Store : Store :=
  { events := [{ eid := 1, organizer := 1, slug := "pv", name := "PV",
                 is_private := true, status := "upcoming",
                 start_date := 3, start_time := 0 }],
    invitations := [],
    registrations := [{ event := 1, user := 7, status := "going" }],
    emailJobs := [], nextInvId := 0, nextToken := 0 }

/-- C4 counterexample: a registration for (event, user) already exists, yet
the further register attempt fails with Forbidden, not Conflict — the
private-event gate fires before the duplicate check. -/
theorem registration_conflict_counterexample :
    hasRegistration c4Store
      { eid := 1, organizer := 1, slug := "pv", name := "PV",
        is_private := true, status := "upcoming",
        start_date := 3, start_time := 0 } ⟨7, "u@x", "attendee"⟩ = true ∧
    register c4Store ⟨7, "u@x", "attendee"⟩ "pv" = (.forbidden, c4Store) ∧
    RegisterResult.forbidden ≠ RegisterResult.conflict := by decide

/-- C4 (amended): per-(event, user) uniqueness is preserved by every
operation; when a registration for the pair exists, a further attempt
leaves the store unchanged (never an overwrite, never a second row) and
fails — with Conflict unless the private-event gate rejects the requester
first with Forbidden; in particular it fails with Conflict whenever the
requester may view the event, hence always directly after a successful
registration. -/
theorem registration_uniqueness (s : Store) (u : UserT) (slug : String)
    (hu : regUnique s) :
    regUnique (register s u slug).2 ∧
    (∀ e, findEvent s slug = some e → hasRegistration s e u = true →
      (register s u slug).2 = s ∧
      ((register s u slug).1 = .conflict ∨ (register s u slug).1 = .forbidden)) ∧
    (∀ e, findEvent s slug = some e → hasRegistration s e u = true →
      (e.is_private = false ∨ u.uid = e.organizer ∨
        hasAcceptedInvitation s e u.email = true) →
      register s u slug = (.conflict, s)) ∧
    (∀ r s', register s u slug = (.created r, s') →
      register s' u slug = (.conflict, s')) ∧
    (∀ tok now, (acceptInvitation s tok now).2.registrations = s.registrations) ∧
    (∀ email, (sendInvitation s u slug email).2.registrations = s.registrations) ∧
    (∀ p newName reqStatus,
      (updateEvent s p slug newName reqStatus).2.registrations = s.registrations) := by
  have hgateOf : ∀ e : Event,
      (e.is_private = false ∨ u.uid = e.organizer ∨
        hasAcceptedInvitation s e u.email = true) →
      (e.is_private && !(u.uid == e.organizer) &&
        !(hasAcceptedInvitation s e u.email)) = false := by
    intro e hview
    rcases hview with h | h | h <;> simp [h]
  refine ⟨?_, ?_, ?_, ?_, ?_, ?_, ?_⟩
  · unfold register
    cases hf : findEvent s slug with
    | none => exact hu
    | some e =>
      simp only []
      split
      · exact hu
      · split
        · exact hu
        · rename_i hreg
          simp only [hasRegistration, List.any_eq_true, Bool.and_eq_true, beq_iff_eq,
            not_exists, not_and] at hreg
          refine List.Pairwise.cons ?_ hu
          intro b hb hab
          exact absurd hab (fun hc => hreg b hb hc.1.symm (by simp [hc.2.symm]))
  · intro e hf hreg
    simp only [register, hf]
    split
    · exact ⟨rfl, Or.inr rfl⟩
    · simp [hreg]
  · intro e hf hreg hview
    simp only [register, hf]
    rw [if_neg (by simp [hgateOf e hview])]
    simp [hreg]
  · intro r s' h
    unfold register at h
    cases hf : findEvent s slug with
    | none => rw [hf] at h; exact absurd h (by simp)
    | some e =>
      rw [hf] at h
      simp only [] at h
      split at h
      · exact absurd h (by simp)
      · split at h
        · exact absurd h (by simp)
        · rename_i hgate hreg
          obtain ⟨hr, hs⟩ := Prod.mk.injEq .. ▸ h
          have hr' := (RegisterResult.created.injEq .. ▸ hr)
          subst hs
          have hfind' : findEvent
              { s with registrations :=
                  { event := e.eid, user := u.uid, status := "going" }
                    :: s.registrations } slug = some e := hf
          have hinv' : hasAcceptedInvitation
              { s with registrations :=
                  { event := e.eid, user := u.uid, status := "going" }
                    :: s.registrations } e u.email = hasAcceptedInvitation s e u.email := rfl
          simp only [register, hfind']
          rw [if_neg (by simpa [hinv'] using hgate)]
          rw [if_pos (by simp [hasRegistration])]
  · intro tok now
    unfold acceptInvitation
    cases s.invitations.find? (fun i => i.token == tok && !i.accepted) <;> rfl
  · intro email
    unfold sendInvitation
    cases findEvent s slug with
    | none => rfl
    | some e =>
      simp only []
      split
      · rfl
      · split
        · rfl
        · split
          · rfl
          · split <;> rfl
  · intro p newName reqStatus
    unfold updateEvent
    cases get_object s p slug with
    | notFound => rfl
    | permissionDenied => rfl
    | ok e =>
      cases p with
      | anon => rfl
      | auth u' => simp only []; split <;> rfl

/-- C4 witness store: a public event with one registration already made by
user 7 through a successful `register` call. -/
def c4wStore : Store :=
  { events := [{ eid := 4, organizer := 1, slug := "pub", name := "Pub",
                 is_private := false, status := "upcoming",
                 start_date := 9, start_time := 0 }],
    invitations := [], registrations := [], emailJobs := [],
    nextInvId := 0, nextToken := 0 }

/-- C4 witness: at the concrete store, registering right after a successful
registration yields Conflict and leaves the store unchanged. -/
theorem registration_uniqueness_witness :
    register
      { c4wStore with registrations := [{ event := 4, user := 7, status := "going" }] }
      ⟨7, "a@x", "attendee"⟩ "pub" =
      (.conflict,
       { c4wStore with registrations := [{ event := 4, user := 7, status := "going" }] }) := by
  have h := registration_uniqueness c4wStore ⟨7, "a@x", "attendee"⟩ "pub"
    List.Pairwise.nil
  exact h.2.2.2.1 { event := 4, user := 7, status := "going" }
    { c4wStore with registrations := [{ event := 4, user := 7, status := "going" }] }
    (by decide)

/-- C5: sending an invitation for an existing event: a non-organizer is
rejected (403); a public event is rejected (400); a duplicate (event,
email) invite yields Conflict (409); otherwise exactly one pending
invitation (accepted = false, accepted_at unset) with a token distinct
from every stored one is created, one asynchronous email job carrying the
invitation id is enqueued, and the 202 outcome is returned. -/
theorem invitation_send (s : Store) (u : UserT) (slug email : String) (e : Event)
    (hfind : findEvent s slug = some e) (hemail : email ≠ "")
    (htok : tokenFresh s) :
    (u.uid ≠ e.organizer → sendInvitation s u slug email = (.forbidden, s)) ∧
    (u.uid = e.organizer → e.is_private = false →
      sendInvitation s u slug email = (.badRequest, s)) ∧
    (u.uid = e.organizer → e.is_private = true → hasInvitation s e email = true →
      sendInvitation s u slug email = (.conflict, s)) ∧
    (u.uid = e.organizer → e.is_private = true → hasInvitation s e email = false →
      ∃ inv : Invitation,
        sendInvitation s u slug email =
          (.accepted inv,
           { s with invitations := inv :: s.invitations,
                    emailJobs := inv.iid :: s.emailJobs,
                    nextInvId := s.nextInvId + 1,
                    nextToken := s.nextToken + 1 }) ∧
        inv.accepted = false ∧ inv.accepted_at = none ∧
        inv.event = e.eid ∧ inv.email = email ∧
        ∀ i ∈ s.invitations, i.token ≠ inv.token) := by
  refine ⟨fun horg => ?_, fun horg hpub => ?_, fun horg hpriv hdup => ?_,
    fun horg hpriv hdup => ?_⟩
  · simp [sendInvitation, hfind, horg]
  · simp [sendInvitation, hfind, horg, hpub]
  · simp [sendInvitation, hfind, horg, hpriv, hemail, hdup]
  · refine ⟨{ iid := s.nextInvId, event := e.eid, email := email,
              token := s.nextToken, accepted := false, accepted_at := none },
      ?_, rfl, rfl, rfl, rfl, ?_⟩
    · simp [sendInvitation, hfind, horg, hpriv, hemail, hdup]
    · intro i hi
      exact Nat.ne_of_lt (htok i hi)

/-- C5 witness store: a private event whose organizer (user 1) has not yet
invited anyone; one stale invitation on another event holds token 3. -/
def c5Store : Store :=
  { events := [{ eid := 2, organizer := 1, slug := "priv", name := "Priv",
                 is_private := true, status := "upcoming",
                 start_date := 6, start_time := 60 }],
    invitations := [{ iid := 0, event := 9, email := "z@x", token := 3,
                      accepted := false, accepted_at := none }],
    registrations := [], emailJobs := [], nextInvId := 1, nextToken := 4 }

/-- C5 witness: at the concrete store, the organizer's invite of a new
email yields the 202 outcome with a pending invitation and a fresh
token, and a non-organizer is rejected. -/
theorem invitation_send_witness :
    (∃ inv : Invitation,
      sendInvitation c5Store ⟨1, "o@x", "organizer"⟩ "priv" "n@x" =
        (.accepted inv,
         { c5Store with invitations := inv :: c5Store.invitations,
                        emailJobs := inv.iid :: c5Store.emailJobs,
                        nextInvId := c5Store.nextInvId + 1,
                        nextToken := c5Store.nextToken + 1 }) ∧
      inv.accepted = false ∧ inv.accepted_at = none ∧
      inv.event = 2 ∧ inv.email = "n@x" ∧
      ∀ i ∈ c5Store.invitations, i.token ≠ inv.token) ∧
    sendInvitation c5Store ⟨5, "w@x", "attendee"⟩ "priv" "n@x" =
      (.forbidden, c5Store) := by
  constructor
  · exact (invitation_send c5Store ⟨1, "o@x", "organizer"⟩ "priv" "n@x"
      { eid := 2, organizer := 1, slug := "priv", name := "Priv",
        is_private := true, status := "upcoming", start_date := 6, start_time := 60 }
      (by decide) (by decide) (by unfold tokenFresh; decide)).2.2.2 rfl rfl (by decide)
  · exact (invitation_send c5Store ⟨5, "w@x", "attendee"⟩ "priv" "n@x"
      { eid := 2, organizer := 1, slug := "priv", name := "Priv",
        is_private := true, status := "upcoming", start_date := 6, start_time := 60 }
      (by decide) (by decide) (by unfold tokenFresh; decide)).1 (by decide)

/-- C6: accepting a token fails with NotFound exactly when no pending
(accepted = false) invitation bears it — an already-accepted token is
indistinguishable from an unknown one — and then changes nothing; on
success the matching invitation is marked accepted with accepted_at
stamped to the current time, any further accept of the same token yields
NotFound and changes nothing (so accepted_at is set exactly once and
never changes), untouched invitations survive unchanged, and no
registration is ever created. -/
theorem invitation_accept (s : Store) (tok : Nat) (now : Int) :
    ((acceptInvitation s tok now).1 = .notFound ↔
      ∀ i ∈ s.invitations, ¬(i.token = tok ∧ i.accepted = false)) ∧
    ((acceptInvitation s tok now).1 = .notFound →
      (acceptInvitation s tok now).2 = s) ∧
    ((acceptInvitation s tok now).1 = .ok →
      ∃ j ∈ (acceptInvitation s tok now).2.invitations,
        j.token = tok ∧ j.accepted = true ∧ j.accepted_at = some now) ∧
    (∀ now₂, (acceptInvitation s tok now).1 = .ok →
      acceptInvitation (acceptInvitation s tok now).2 tok now₂ =
        (.notFound, (acceptInvitation s tok now).2)) ∧
    (∀ i ∈ s.invitations, ¬(i.token = tok ∧ i.accepted = false) →
      i ∈ (acceptInvitation s tok now).2.invitations) ∧
    (acceptInvitation s tok now).2.registrations = s.registrations := by
  cases hf : s.invitations.find? (fun i => i.token == tok && !i.accepted) with
  | none =>
    have hres : acceptInvitation s tok now = (.notFound, s) := by
      simp [acceptInvitation, hf]
    rw [List.find?_eq_none] at hf
    refine ⟨iff_of_true (by rw [hres]) ?_, fun _ => by rw [hres], ?_, ?_, ?_, by rw [hres]⟩
    · intro i hi
      have := hf i hi
      simpa [Bool.and_eq_true, Bool.not_eq_true'] using this
    · intro h; rw [hres] at h; cases h
    · intro now₂ h; rw [hres] at h; cases h
    · intro i hi _; rw [hres]; exact hi
  | some i =>
    have hmem : i ∈ s.invitations := List.mem_of_find?_eq_some hf
    have hp := List.find?_some hf
    have hptok : i.token = tok := by
      have := (Bool.and_eq_true ..).mp hp
      exact beq_iff_eq.mp this.1
    have hpacc : i.accepted = false := by
      have := (Bool.and_eq_true ..).mp hp
      exact Bool.not_eq_true' .. ▸ this.2
    have hres : acceptInvitation s tok now =
        (.ok, { s with invitations := s.invitations.map (fun x =>
            if x.token == tok && !x.accepted then
              { x with accepted := true, accepted_at := some now }
            else x) }) := by
      simp [acceptInvitation, hf]
    have hnone2 : ∀ x ∈ s.invitations.map (fun x =>
        if x.token == tok && !x.accepted then
          { x with accepted := true, accepted_at := some now }
        else x), ¬ ((x.token == tok && !x.accepted) = true) := by
      intro x hx
      rcases List.mem_map.mp hx with ⟨y, _, rfl⟩
      by_cases hy : (y.token == tok && !y.accepted) = true
      · simp [hy]
      · simp [hy]
    refine ⟨iff_of_false (by rw [hres]; simp) ?_, fun h => ?_, fun _ => ?_,
      fun now₂ _ => ?_, fun j hj hnot => ?_, by rw [hres]⟩
    · intro hall
      exact hall i hmem ⟨hptok, hpacc⟩
    · rw [hres] at h; cases h
    · refine ⟨{ i with accepted := true, accepted_at := some now }, ?_, hptok, rfl, rfl⟩
      rw [hres]
      exact List.mem_map.mpr ⟨i, hmem, by simp [hp]⟩
    · rw [hres]
      simp only [acceptInvitation]
      rw [List.find?_eq_none.mpr hnone2]
    · rw [hres]
      have hj' : (j.token == tok && !j.accepted) = false := by
        rcases Bool.eq_false_or_eq_true (j.token == tok && !j.accepted) with h | h
        · exfalso
          have := (Bool.and_eq_true ..).mp h
          exact hnot ⟨beq_iff_eq.mp this.1, Bool.not_eq_true' .. ▸ this.2⟩
        · exact h
      exact List.mem_map.mpr ⟨j, hj, by simp [hj']⟩

/-- C6 witness store: one pending invitation with token 5 and one
already-accepted invitation with token 9. -/
def c6Store : Store :=
  { events := [], invitations :=
      [{ iid := 0, event := 1, email := "a@x", token := 5,
         accepted := false, accepted_at := none },
       { iid := 1, event := 1, email := "b@x", token := 9,
         accepted := true, accepted_at := some 2 }],
    registrations := [], emailJobs := [], nextInvId := 2, nextToken := 10 }

/-- C6 witness: at the concrete store, accepting token 5 twice yields
NotFound on the second attempt with the store unchanged, and accepting
the already-accepted token 9 yields NotFound like an unknown token. -/
theorem invitation_accept_witness :
    acceptInvitation (acceptInvitation c6Store 5 100).2 5 200 =
      (.notFound, (acceptInvitation c6Store 5 100).2) ∧
    (acceptInvitation c6Store 9 100).1 = .notFound ∧
    (acceptInvitation c6Store 42 100).1 = .notFound := by
  refine ⟨(invitation_accept c6Store 5 100).2.2.2.1 200 (by decide), ?_, ?_⟩
  · exact (invitation_accept c6Store 9 100).1.mpr (by
      intro i hi
      fin_cases hi <;> simp)
  · exact (invitation_accept c6Store 42 100).1.mpr (by
      intro i hi
      fin_cases hi <;> simp)

/-- C9 counterexample store: a public event with status `upcoming`,
organized by user 1. -/
def c9Store : Store :=
  { events := [{ eid := 1, organizer := 1, slug := "e", name := "E",
                 is_private := false, status := "upcoming",
                 start_date := 3, start_time := 0 }],
    invitations := [], registrations := [], emailJobs := [],
    nextInvId := 0, nextToken := 0 }

/-- C9 counterexample: the organizer's update requesting status
`cancelled` succeeds, yet the stored status is still `upcoming` — the
serializer silently drops the requested value. -/
theorem update_status_counterexample :
    (updateEvent c9Store (.auth ⟨1, "o@x", "organizer"⟩) "e" "E" "cancelled").1
      = .ok ∧
    (findEvent (updateEvent c9Store (.auth ⟨1, "o@x", "organizer"⟩) "e" "E"
        "cancelled").2 "e").map Event.status = some "upcoming" ∧
    ("upcoming" : String) ≠ "cancelled" := by decide

/-- C9 (amended): an organizer's update request naming any status value
succeeds, but `status` is among the serializer's read-only fields: the
requested value is ignored and every event's stored status is exactly
what it was before — no status transition is performable through the
update endpoint at all. -/
theorem update_status_readonly (s : Store) (u : UserT) (slug newName reqStatus : String)
    (e : Event) (hobj : get_object s (.auth u) slug = .ok e)
    (horg : u.uid = e.organizer) :
    (updateEvent s (.auth u) slug newName reqStatus).1 = .ok ∧
    (updateEvent s (.auth u) slug newName reqStatus).2.events.map Event.status =
      s.events.map Event.status := by
  have hres : updateEvent s (.auth u) slug newName reqStatus =
      (.ok, { s with events := s.events.map (fun x =>
          if x.eid == e.eid then { x with name := newName } else x) }) := by
    simp [updateEvent, hobj, horg]
  rw [hres]
  refine ⟨rfl, ?_⟩
  simp only [List.map_map]
  apply List.map_congr_left
  intro x _
  simp only [Function.comp_apply]
  split <;> rfl

/-- C9 witness: at the concrete store, the theorem instantiates to: the
status-changing update succeeds and the stored statuses are untouched. -/
theorem update_status_readonly_witness :
    (updateEvent c9Store (.auth ⟨1, "o@x", "organizer"⟩) "e" "E2" "completed").1
      = .ok ∧
    (updateEvent c9Store (.auth ⟨1, "o@x", "organizer"⟩) "e" "E2"
        "completed").2.events.map Event.status = c9Store.events.map Event.status :=
  update_status_readonly c9Store ⟨1, "o@x", "organizer"⟩ "e" "E2" "completed"
    { eid := 1, organizer := 1, slug := "e", name := "E", is_private := false,
      status := "upcoming", start_date := 3, start_time := 0 }
    (by decide) rfl

/-- C10: in `InvitationSendView.post` the not-organizer check precedes the
not-private check: any non-organizer is rejected with Forbidden even for
a public event, and the 400 "event is not private" outcome implies the
requester was the organizer of a public event. -/
theorem invite_forbidden_precedence (s : Store) (u : UserT) (slug email : String)
    (e : Event) (hfind : findEvent s slug = some e) :
    (u.uid ≠ e.organizer → sendInvitation s u slug email = (.forbidden, s)) ∧
    ((sendInvitation s u slug email).1 = .badRequest →
      u.uid = e.organizer ∧ e.is_private = false) := by
  constructor
  · intro horg
    simp [sendInvitation, hfind, horg]
  · intro hbad
    by_cases horg : u.uid = e.organizer
    · refine ⟨horg, ?_⟩
      by_cases hpriv : e.is_private
      · exfalso
        simp only [sendInvitation, hfind, horg, hpriv] at hbad
        rw [if_neg (by simp)] at hbad
        rw [if_neg (by simp [hpriv])] at hbad
        split at hbad
        · cases hbad
        · split at hbad
          · cases hbad
          · cases hbad
      · simpa using hpriv
    · exfalso
      simp [sendInvitation, hfind, horg] at hbad

/-- C10 witness store: a public event organized by user 1. -/
def c10Store : Store :=
  { events := [{ eid := 1, organizer := 1, slug := "e", name := "E",
                 is_private := false, status := "upcoming",
                 start_date := 3, start_time := 0 }],
    invitations := [], registrations := [], emailJobs := [],
    nextInvId := 0, nextToken := 0 }

/-- C10 witness: at a concrete store with a public event, a non-organizer's
invite is rejected with Forbidden, not with the 400 not-private outcome. -/
theorem invite_forbidden_precedence_witness :
    sendInvitation c10Store ⟨5, "w@x", "attendee"⟩ "e" "n@x" =
      (.forbidden, c10Store) :=
  (invite_forbidden_precedence c10Store ⟨5, "w@x", "attendee"⟩ "e" "n@x"
    { eid := 1, organizer := 1, slug := "e", name := "E", is_private := false,
      status := "upcoming", start_date := 3, start_time := 0 }
    (by decide)).1 (by decide)

/-- Every job emitted for an event carries that event's id. -/
theorem jobsForEvent_event_eq (s : Store) (now : Instant) (x : Event) (j : ReminderJob)
    (hj : j ∈ jobsForEvent s now x) : j.event = x.eid := by
  unfold jobsForEvent at hj
  split at hj
  · rcases List.mem_map.mp hj with ⟨r, _, rfl⟩
    rfl
  · cases hj

/-- Filtering an event's own jobs by its id keeps all of them. -/
theorem jobsForEvent_filter_self (s : Store) (now : Instant) (e : Event) :
    (jobsForEvent s now e).filter (fun j => j.event == e.eid) = jobsForEvent s now e := by
  apply List.filter_eq_self.mpr
  intro j hj
  simp [jobsForEvent_event_eq s now e j hj]

/-- Jobs of events with a different id are all dropped by the id filter. -/
theorem flatMap_filter_ne (s : Store) (now : Instant) (eid0 : Nat) :
    ∀ l : List Event, (∀ x ∈ l, x.eid ≠ eid0) →
      (l.flatMap (jobsForEvent s now)).filter (fun j => j.event == eid0) = [] := by
  intro l hl
  induction l with
  | nil => rfl
  | cons a t ih =>
    rw [List.flatMap_cons, List.filter_append,
      ih (fun x hx => hl x (List.mem_cons_of_mem a hx)), List.append_nil]
    apply List.filter_eq_nil_iff.mpr
    intro j hj
    simp [jobsForEvent_event_eq s now a j hj, hl a (List.mem_cons_self a t)]

/-- In a duplicate-free event table, the id-filtered sweep output over the
kept events is exactly the one event's own job list. -/
theorem flatMap_filter_unique (s : Store) (now : Instant) (e : Event) :
    ∀ l : List Event, List.Pairwise (fun a b => a.eid ≠ b.eid) l → e ∈ l →
      sweepKeep now e = true →
      ((l.filter (sweepKeep now)).flatMap (jobsForEvent s now)).filter
          (fun j => j.event == e.eid) = jobsForEvent s now e := by
  intro l hpw hmem hkeep
  induction l with
  | nil => cases hmem
  | cons a t ih =>
    rw [List.pairwise_cons] at hpw
    rcases List.mem_cons.mp hmem with rfl | hmem'
    · rw [List.filter_cons_of_pos hkeep, List.flatMap_cons, List.filter_append,
        jobsForEvent_filter_self,
        flatMap_filter_ne s now e.eid (t.filter (sweepKeep now))
          (fun x hx => (hpw.1 x (List.mem_of_mem_filter hx)).symm),
        List.append_nil]
    · have hane : a.eid ≠ e.eid := hpw.1 e hmem'
      by_cases hka : sweepKeep now a = true
      · rw [List.filter_cons_of_pos hka, List.flatMap_cons, List.filter_append,
          List.filter_eq_nil_iff.mpr
            (fun j hj => by simp [jobsForEvent_event_eq s now a j hj, hane]),
          List.nil_append]
        exact ih hpw.2 hmem'
      · rw [List.filter_cons_of_neg (by simpa using hka)]
        exact ih hpw.2 hmem'

/-- C7 counterexample event: upcoming, starting at absolute minute 1440
(T), so the reminder is due at minute 0. -/
def c7Event : Event :=
  { eid := 1, organizer := 1, slug := "g", name := "G",
    is_private := false, status := "upcoming",
    start_date := 1, start_time := 0 }

/-- C7 counterexample store: the event above with one `going` registrant
(user 5). -/
def c7Store : Store :=
  { events := [c7Event],
    invitations := [],
    registrations := [{ event := 1, user := 5, status := "going" }],
    emailJobs := [], nextInvId := 0, nextToken := 0 }

/-- C7 counterexample: at `now = T − 24h` — inside the claim's window
`[T−24h, T−23h)` — the sweep schedules nothing at all, because the code
requires `now < reminder_time` strictly. -/
theorem sweep_window_counterexample :
    (c7Event.status = "upcoming" ∧
     reminderTime c7Event ≤ (⟨0, 0⟩ : Instant).toMin ∧
     (⟨0, 0⟩ : Instant).toMin < reminderTime c7Event + 60 ∧
     ({ event := 1, user := 5, status := "going" } : Registration)
        ∈ c7Store.registrations) ∧
    schedule_event_reminders c7Store ⟨0, 0⟩ = [] := by decide

/-- C7 (amended): for an upcoming event E with start instant T and a sweep
instant strictly inside the code's window — `now < T−24h < now + 1h` —
whose time of day does not exceed E's start time of day, the sweep emits,
among jobs targeted at E, exactly one job per `going` registration of E,
each timed to fire at exactly T−24h; every such job stems from a `going`
registration, so `maybe` and `not_going` registrants get none. -/
theorem sweep_reminder_window (s : Store) (now : Instant) (e : Event)
    (he : e ∈ s.events) (hids : eventIdsUnique s)
    (hstatus : e.status = "upcoming")
    (hw1 : now.toMin < reminderTime e) (hw2 : reminderTime e < now.toMin + 60)
    (hnt : 0 ≤ now.time) (het : e.start_time < 1440)
    (htod : now.time ≤ e.start_time) :
    (schedule_event_reminders s now).filter (fun j => j.event == e.eid) =
      (s.registrations.filter
          (fun r => r.event == e.eid && r.status == "going")).map
        (fun r => { event := e.eid, user := r.user, eta := reminderTime e }) ∧
    (∀ j ∈ schedule_event_reminders s now, j.event = e.eid →
      j.eta = reminderTime e ∧
      ∃ r ∈ s.registrations, r.event = e.eid ∧ r.status = "going" ∧
        r.user = j.user) := by
  have hdate : now.date ≤ e.start_date := by
    simp only [Instant.toMin, reminderTime, eventStart] at hw1
    omega
  have hkeep : sweepKeep now e = true := by
    simp [sweepKeep, hstatus, hdate, htod]
  have hmain : (schedule_event_reminders s now).filter (fun j => j.event == e.eid) =
      jobsForEvent s now e :=
    flatMap_filter_unique s now e s.events hids he hkeep
  have hjobs : jobsForEvent s now e =
      (s.registrations.filter
          (fun r => r.event == e.eid && r.status == "going")).map
        (fun r => { event := e.eid, user := r.user, eta := reminderTime e }) := by
    unfold jobsForEvent
    rw [if_pos ⟨hw1, hw2⟩]
  refine ⟨hmain.trans hjobs, ?_⟩
  intro j hj hje
  have hj' : j ∈ (schedule_event_reminders s now).filter
      (fun j => j.event == e.eid) :=
    List.mem_filter.mpr ⟨hj, by simp [hje]⟩
  rw [hmain.trans hjobs] at hj'
  rcases List.mem_map.mp hj' with ⟨r, hr, rfl⟩
  have hrp := (List.mem_filter.mp hr).2
  simp only [Bool.and_eq_true, beq_iff_eq] at hrp
  exact ⟨rfl, r, (List.mem_filter.mp hr).1, hrp.1, hrp.2, rfl⟩

/-- C7 witness event: upcoming, starting at absolute minute 1470, so the
reminder is due at minute 30. -/
def c7wEvent : Event :=
  { eid := 2, organizer := 1, slug := "h", name := "H",
    is_private := false, status := "upcoming",
    start_date := 1, start_time := 30 }

/-- C7 witness store: the event above with one `going` registrant (user 5)
and one `maybe` registrant (user 6). -/
def c7wStore : Store :=
  { events := [c7wEvent],
    invitations := [],
    registrations := [{ event := 2, user := 5, status := "going" },
                      { event := 2, user := 6, status := "maybe" }],
    emailJobs := [], nextInvId := 0, nextToken := 0 }

/-- C7 witness: sweeping at minute 0 (reminder due at minute 30, within
the next hour) schedules exactly the one job for the `going` registrant,
timed at minute 30, and none for the `maybe` registrant. -/
theorem sweep_reminder_window_witness :
    (schedule_event_reminders c7wStore ⟨0, 0⟩).filter (fun j => j.event == 2) =
      [{ event := 2, user := 5, eta := 30 }] := by
  have h := sweep_reminder_window c7wStore ⟨0, 0⟩ c7wEvent
    (by decide) (by exact List.pairwise_singleton _ _) rfl (by decide) (by decide)
    (by decide) (by decide) (by decide)
  exact h.1.trans (by decide)

/-- C8 failing event: upcoming, two days ahead, starting at 09:00
(minute 540 of its day). -/
def c8Event : Event :=
  { eid := 3, organizer := 1, slug := "f", name := "F",
    is_private := false, status := "upcoming",
    start_date := 2, start_time := 540 }

/-- C8 failing store: just the event above, examined by a sweep running at
14:00 (minute 840 of day 0). -/
def c8Store : Store :=
  { events := [c8Event],
    invitations := [], registrations := [], emailJobs := [],
    nextInvId := 0, nextToken := 0 }

/-- C8: the sweep's selection is not "every upcoming event with a future
start": the stored event is upcoming and starts strictly in the future,
yet `sweepSelect` drops it because its start time of day (09:00) is
earlier than the sweep's time of day (14:00) — the
`start_time__gte=now.time()` conjunct of the queryset. -/
theorem sweep_selection_divergence :
    (c8Event.status = "upcoming" ∧
     (⟨0, 840⟩ : Instant).toMin < eventStart c8Event) ∧
    c8Event ∈ c8Store.events ∧
    c8Event ∉ sweepSelect c8Store ⟨0, 840⟩ := by decide

end EventAPI
